import Mathlib

/-!
Shallow embedding of the agent tool-calling loop of this repository
(src/agent/run.ts and the lesson-code variants in the course notes),
together with the tool executor (src/agent/executeTool.ts), the
code-execution tool (tools/codeExecution.ts from the shell lesson) and
the context compactor (src/agent/context/compaction.ts from the
web-search lesson).

External collaborators (the OpenAI generation capability, the approval
callback, the tool implementations, `filterCompatibleMessages` and
`messagesToText`, whose sources are not part of the snippet set) are
modelled as explicit function parameters; the generation capability is
modelled as a script: the list of results its successive invocations
produce.  JavaScript values reaching `String(...)` are modelled by the
inductive `JSValue`; a JS exception is the `Except.error` branch.
-/

/-- Message roles of the AI SDK `ModelMessage` type. -/
inductive Role where
  | system
  | user
  | assistant
  | tool
deriving DecidableEq, Repr

/-- One `tool-result` content part, as pushed by the agent loop:
`{ type: "tool-result", toolCallId, toolName, output: { type: "text", value } }`. -/
structure ToolResultPart where
  toolCallId : String
  toolName : String
  output : String
deriving DecidableEq, Repr

/-- Message content: plain text, or a list of structured tool-result parts. -/
inductive Content where
  | text (s : String)
  | toolResults (parts : List ToolResultPart)
deriving DecidableEq, Repr

/-- A conversation message (`ModelMessage`). -/
structure Message where
  role : Role
  content : Content
deriving DecidableEq, Repr

/-- JavaScript runtime values, as far as the embedded code inspects them.
Numbers are modelled by integers: no claim computes with a JS number. -/
inductive JSValue where
  | str (s : String)
  | num (n : Int)
  | bool (b : Bool)
  | null
  | undefined
  | obj
deriving DecidableEq, Repr

/-- The JS `String(...)` coercion on the modelled values. -/
def jsString : JSValue → String
  | JSValue.str s => s
  | JSValue.num n => toString n
  | JSValue.bool b => if b then "true" else "false"
  | JSValue.null => "null"
  | JSValue.undefined => "undefined"
  | JSValue.obj => "[object Object]"

/-- Tool-call arguments: a JS record `Record<string, unknown>`. -/
abbrev Args : Type := List (String × JSValue)

/-- Does the character list `l` start with `p`?  (JS `startsWith` on data.) -/
def listStartsWith : List Char → List Char → Bool
  | [], _ => true
  | _ :: _, [] => false
  | p :: ps, c :: cs => p == c && listStartsWith ps cs

/-- Does the character list contain `sub` as a contiguous run? -/
def listContainsSub (sub : List Char) : List Char → Bool
  | [] => sub.isEmpty
  | c :: cs => listStartsWith sub (c :: cs) || listContainsSub sub cs

/-- JS `s.includes(sub)`. -/
def strIncludes (s sub : String) : Bool :=
  listContainsSub sub.data s.data

/-- A tool descriptor of the registry: a description plus an optional local
executor.  A descriptor with `execute = none` is a provider tool.  The
executor receives the call arguments and either resolves to a JS value or
throws (`Except.error` carries the thrown error's message). -/
structure ToolDescr where
  description : String
  execute : Option (Args → Except String JSValue)

/-- The tool registry `tools` of src/agent/tools/index.ts, as a name-keyed map. -/
abbrev ToolRegistry : Type := List (String × ToolDescr)

/-- Embedding of `executeTool` (src/agent/executeTool.ts): look the name up in
the registry; unknown names and provider tools yield marker strings; a local
executor's resolved value is coerced with `String(...)`.  The function has no
try/catch, so an executor that throws propagates (`Except.error`). -/
def executeTool (tools : ToolRegistry) (name : String) (args : Args) :
    Except String String :=
  match List.lookup name tools with
  | none => Except.ok ("Unknown tool: " ++ name)
  | some tool =>
    match tool.execute with
    | none => Except.ok ("Provider tool " ++ name ++ " - executed by model provider")
    | some ex =>
      match ex args with
      | Except.ok v => Except.ok (jsString v)
      | Except.error e => Except.error e

/-- Result of `shell.exec(command, { silent: true })` in the code-execution
tool: captured stdout, stderr and the exit code. -/
structure ShellResult where
  stdout : String
  stderr : String
  code : Int
deriving DecidableEq, Repr

/-- Embedding of the `execute` body of `executeCode`
(src/agent/tools/codeExecution.ts): the try-block writes the code to a temp
file and runs it; the raising operation modelled is `fs.writeFile` (the
`catch` clause converts any error raised in the try-block the same way, and
the `finally` cleanup ignores its own errors and does not change the result).
JS string truthiness (`if (result.stdout)`) is an emptiness test. -/
def executeCode (writeFileResult : Except String Unit) (execResult : ShellResult) :
    Except String String :=
  match writeFileResult with
  | Except.error err => Except.ok ("Error executing code: " ++ err)
  | Except.ok _ =>
    let output :=
      (if execResult.stdout == "" then "" else execResult.stdout) ++
      (if execResult.stderr == "" then "" else execResult.stderr)
    if execResult.code == 0 then
      Except.ok (if output == "" then "Code executed successfully (no output)" else output)
    else
      Except.ok ("Execution failed (exit code " ++ toString execResult.code ++ "):\n" ++ output)

/-- The summarization instruction of src/agent/context/compaction.ts. -/
def SUMMARIZATION_PROMPT : String :=
  "You are a conversation summarizer. Your task is to create a concise summary of the conversation so far that preserves:\n\n1. Key decisions and conclusions reached\n2. Important context and facts mentioned\n3. Any pending tasks or questions\n4. The overall goal of the conversation\n\nBe concise but complete. The summary should allow the conversation to continue naturally.\n\nConversation to summarize:\n"

/-- Result of `compactConversation`, with an instrumentation counter: how many
times the external generation capability (`generateText`) was invoked. -/
structure CompactResult where
  messages : List Message
  generateTextCalls : Nat
deriving Repr

/-- Embedding of `compactConversation` (src/agent/context/compaction.ts).
`generateSummary` is the external generation capability (prompt to summary
text); `messagesToText` renders messages to plain text (its source file is
not in the snippet set, so it stays a parameter). -/
def compactConversation (generateSummary : String → String)
    (messagesToText : List Message → String) (messages : List Message) :
    CompactResult :=
  let conversationMessages := messages.filter (fun m => decide (m.role ≠ Role.system))
  if conversationMessages.length = 0 then
    { messages := [], generateTextCalls := 0 }
  else
    let conversationText := messagesToText conversationMessages
    let summary := generateSummary (SUMMARIZATION_PROMPT ++ conversationText)
    { messages := [
        { role := Role.user,
          content := Content.text
            ("[CONVERSATION SUMMARY]\nThe following is a summary of our conversation so far:\n\n"
              ++ summary ++ "\n\nPlease continue from where we left off.") },
        { role := Role.assistant,
          content := Content.text
            "I understand. I\x27ve reviewed the summary of our conversation and I\x27m ready to continue. How can I help you next?" }],
      generateTextCalls := 1 }

/-- The fixed fallback response of `runAgent` when the stream errored having
produced no text. -/
def apologyMessage : String :=
  "I apologize, but I wasn\x27t able to generate a response. Could you please try rephrasing your message?"

/-- One proposed tool call collected from the stream (`ToolCallInfo` in
src/types.ts). -/
structure ToolCallInfo where
  toolCallId : String
  toolName : String
  args : Args
deriving DecidableEq, Repr

/-- The result of one invocation of the generation capability (`streamText`):
the accumulated `text-delta` text, the streamed `tool-call` chunks, an
optional stream error (its message; `none` when the stream completes), the
awaited finish reason, and the messages of `result.response`. -/
structure GenTurn where
  text : String
  toolCalls : List ToolCallInfo
  streamError : Option String
  finishReason : String
  responseMessages : List Message

/-- The loop-local mutable state of `runAgent`: the `messages` array, the
accumulated `fullResponse`, and an instrumentation counter of generation
calls (`streamText` invocations) made so far. -/
structure LoopState where
  messages : List Message
  fullResponse : String
  genCalls : Nat

/-- How the `while (true)` loop ended: `done` (a `break`), `thrown`
(the loop rethrew a stream error), or `scriptEnded` (the modelled script ran
out while the loop was still iterating — the real loop would call the
generation capability again). -/
inductive LoopExit where
  | done
  | thrown (msg : String)
  | scriptEnded
deriving DecidableEq, Repr

/-- Embedding of the `while (true)` body of `runAgent` in src/agent/run.ts.
In this variant the AI SDK executes tools itself; the loop only streams, does
error recovery, appends `result.response.messages` and re-checks the finish
reason.  One script entry is consumed per iteration. -/
def runLoopSrc : List GenTurn → LoopState → LoopState × LoopExit
  | [], st => (st, LoopExit.scriptEnded)
  | turn :: rest, st =>
    let st1 : LoopState := { st with genCalls := st.genCalls + 1 }
    match turn.streamError with
    | some err =>
      if turn.text == "" && !(strIncludes err "No output generated") then
        (st1, LoopExit.thrown err)
      else
        let st2 := { st1 with fullResponse := st1.fullResponse ++ turn.text }
        if turn.text == "" then
          ({ st2 with fullResponse := apologyMessage }, LoopExit.done)
        else
          let st3 := { st2 with messages := st2.messages ++ turn.responseMessages }
          if turn.finishReason == "tool-calls" then runLoopSrc rest st3
          else (st3, LoopExit.done)
    | none =>
      let st2 := { st1 with fullResponse := st1.fullResponse ++ turn.text }
      let st3 := { st2 with messages := st2.messages ++ turn.responseMessages }
      if turn.finishReason == "tool-calls" then runLoopSrc rest st3
      else (st3, LoopExit.done)

/-- The outcome of one `runAgent` call: the final loop state, the way the
loop exited, and the value handed back to the caller (`none` when the run
threw, or when the modelled script ended early). -/
structure RunResult where
  state : LoopState
  exit : LoopExit
  returned : Option (List Message)

/-- Embedding of `runAgent` (src/agent/run.ts).  `filterCompatible` stands for
`filterCompatibleMessages` (its source file is not in the snippet set) and
`systemPromptText` for `SYSTEM_PROMPT`; `script` models the generation
capability.  On normal completion the function returns
`messages.filter((msg) => msg.role !== "system")`. -/
def runAgent (filterCompatible : List Message → List Message)
    (systemPromptText : String) (userMessage : String)
    (conversationHistory : List Message) (script : List GenTurn) : RunResult :=
  let workingHistory := filterCompatible conversationHistory
  let messages : List Message :=
    { role := Role.system, content := Content.text systemPromptText }
      :: workingHistory ++ [{ role := Role.user, content := Content.text userMessage }]
  let r := runLoopSrc script { messages := messages, fullResponse := "", genCalls := 0 }
  { state := r.1, exit := r.2,
    returned :=
      match r.2 with
      | LoopExit.done => some (r.1.messages.filter (fun m => decide (m.role ≠ Role.system)))
      | _ => none }

/-- Build the tool-result message pushed by the loop after executing one tool
call, as in part 5 of the agent-loop lesson and the eval-lesson `runAgent`. -/
def toolResultMessage (tc : ToolCallInfo) (result : String) : Message :=
  { role := Role.tool,
    content := Content.toolResults
      [{ toolCallId := tc.toolCallId, toolName := tc.toolName, output := result }] }

/-- Embedding of the sequential tool-processing loop of the HITL lesson
(09-HITL.md): for each collected tool call ask `onToolApproval`; on rejection
set `rejected` and `break`; on approval run `executeTool` and push the
tool-result message.  Returns the executed calls in order, the pushed
messages in order, and the `rejected` flag.  `exec` is the (string-returning)
tool execution; the variant without a gate is `onToolApproval = fun _ => true`. -/
def processToolCalls (onToolApproval : ToolCallInfo → Bool)
    (exec : ToolCallInfo → String) :
    List ToolCallInfo → List ToolCallInfo × List Message × Bool
  | [] => ([], [], false)
  | tc :: rest =>
    if onToolApproval tc then
      let result := exec tc
      let (ex, msgs, rej) := processToolCalls onToolApproval exec rest
      (tc :: ex, toolResultMessage tc result :: msgs, rej)
    else
      ([], [], true)

/-- Loop state of the self-executing `runAgent` variant (eval lesson /
HITL lesson): as `LoopState`, plus the list of tool calls actually executed,
in execution order (instrumentation). -/
structure HitlState where
  messages : List Message
  fullResponse : String
  genCalls : Nat
  executed : List ToolCallInfo

mutual

/-- Embedding of the `while (true)` body of the `runAgent` variant that
executes tools itself (the eval-lesson `run.ts` with the HITL lesson's
approval block): stream, recover from no-output errors, exit when the finish
reason is not `tool-calls` or no tool call was collected, otherwise push
`result.response.messages`, process the collected tool calls sequentially
through the approval gate, and `break` out of the outer loop when a call was
rejected. -/
def runLoopHitl (onToolApproval : ToolCallInfo → Bool)
    (exec : ToolCallInfo → String) :
    List GenTurn → HitlState → HitlState × LoopExit
  | [], st => (st, LoopExit.scriptEnded)
  | turn :: rest, st =>
    let st1 : HitlState := { st with genCalls := st.genCalls + 1 }
    match turn.streamError with
    | some err =>
      if turn.text == "" && !(strIncludes err "No output generated") then
        (st1, LoopExit.thrown err)
      else
        let st2 := { st1 with fullResponse := st1.fullResponse ++ turn.text }
        if turn.text == "" then
          ({ st2 with fullResponse := apologyMessage }, LoopExit.done)
        else
          runAfterStreamHitl onToolApproval exec turn rest st2
    | none =>
      let st2 := { st1 with fullResponse := st1.fullResponse ++ turn.text }
      runAfterStreamHitl onToolApproval exec turn rest st2
termination_by script _st => 2 * script.length

/-- The part of the loop body after the stream completed (or its error was
recovered): finish-reason check, message push, sequential tool processing,
rejection break. -/
def runAfterStreamHitl (onToolApproval : ToolCallInfo → Bool)
    (exec : ToolCallInfo → String) (turn : GenTurn) (rest : List GenTurn)
    (st : HitlState) : HitlState × LoopExit :=
  if turn.finishReason != "tool-calls" || turn.toolCalls.isEmpty then
    ({ st with messages := st.messages ++ turn.responseMessages }, LoopExit.done)
  else
    let st3 := { st with messages := st.messages ++ turn.responseMessages }
    let (ex, msgs, rejected) := processToolCalls onToolApproval exec turn.toolCalls
    let st4 := { st3 with messages := st3.messages ++ msgs, executed := st3.executed ++ ex }
    if rejected then (st4, LoopExit.done)
    else runLoopHitl onToolApproval exec rest st4
termination_by 2 * rest.length + 1

end

/-- Loop state of the capped agent-loop pattern of the agent-loop lesson
(04-The-Agent-Loop.md): messages, the generation-call counter (one generation
per iteration of `while (iterations < MAX_ITERATIONS)`), and the executed
tool calls (instrumentation). -/
structure CappedState where
  messages : List Message
  genCalls : Nat
  executed : List ToolCallInfo

/-- Embedding of the bounded-loop pattern of the agent-loop lesson:
`while (iterations < MAX_ITERATIONS) { ...loop body...; iterations++ }` with
the lesson's body — call the model, break when the finish reason is not
`tool-calls` or no tool call was made, otherwise execute every tool call and
loop.  The first argument is the remaining iteration budget
(`MAX_ITERATIONS - iterations`); `model` maps the index of a generation call
to its result. -/
def runLoopCapped (exec : ToolCallInfo → String) (model : Nat → GenTurn) :
    Nat → CappedState → CappedState
  | 0, st => st
  | budget + 1, st =>
    let turn := model st.genCalls
    let st1 : CappedState :=
      { st with genCalls := st.genCalls + 1, messages := st.messages ++ turn.responseMessages }
    if turn.finishReason != "tool-calls" || turn.toolCalls.isEmpty then st1
    else
      let results := turn.toolCalls.map (fun tc => toolResultMessage tc (exec tc))
      runLoopCapped exec model budget
        { st1 with messages := st1.messages ++ results,
                   executed := st1.executed ++ turn.toolCalls }

/-- The provider-executed web-search tool of the web-search lesson
(`webSearch: openai.tools.webSearch(...)`): no local executor. -/
def webSearchTool : ToolDescr :=
  { description := "Search the web for current information", execute := none }

/-- The date-time tool (src/agent/tools/dateTime.ts).  Its executor returns
`new Date().toISOString()`; the current instant is impure, so it is a
parameter of the embedding. -/
def dateTimeTool (now : String) : ToolDescr :=
  { description := "return the current date and time. Useful for when you need the current date and time.",
    execute := some (fun _ => Except.ok (JSValue.str now)) }

/-- A concrete registry instance built from the repository's tools, used to
instantiate the theorems with hypotheses at concrete inputs. -/
def sampleRegistry (now : String) : ToolRegistry :=
  [("dateTime", dateTimeTool now), ("webSearch", webSearchTool)]

/-- A generation result in which the model requests one tool call. -/
def toolCallTurn : GenTurn :=
  { text := "",
    toolCalls := [{ toolCallId := "call_1", toolName := "dateTime", args := [] }],
    streamError := none,
    finishReason := "tool-calls",
    responseMessages := [{ role := Role.assistant, content := Content.text "" }] }

/-- A generation result in which the model finishes with plain text. -/
def stopTurn : GenTurn :=
  { text := "Hello!",
    toolCalls := [],
    streamError := none,
    finishReason := "stop",
    responseMessages := [{ role := Role.assistant, content := Content.text "Hello!" }] }

/-- A generation result proposing a batch of three tool calls. -/
def threeCallTurn : GenTurn :=
  { text := "",
    toolCalls :=
      [{ toolCallId := "c1", toolName := "readFile", args := [] },
       { toolCallId := "c2", toolName := "deleteFile", args := [] },
       { toolCallId := "c3", toolName := "writeFile", args := [] }],
    streamError := none,
    finishReason := "tool-calls",
    responseMessages := [{ role := Role.assistant, content := Content.text "" }] }

/-- A generation result whose stream threw the AI SDK no-output error before
producing any text. -/
def noOutputErrorTurn : GenTurn :=
  { text := "",
    toolCalls := [],
    streamError := some "No output generated.",
    finishReason := "error",
    responseMessages := [] }

theorem listStartsWith_extend (sub pre r : List Char)
    (h : listStartsWith sub pre = true) : listStartsWith sub (pre ++ r) = true := by
  induction sub generalizing pre with
  | nil => rfl
  | cons a as ih =>
    cases pre with
    | nil => simp [listStartsWith] at h
    | cons b bs =>
      simp only [listStartsWith, Bool.and_eq_true, beq_iff_eq] at h
      simp only [List.cons_append, listStartsWith, Bool.and_eq_true, beq_iff_eq]
      exact ⟨h.1, ih bs h.2⟩

theorem listContainsSub_of_startsWith (sub l : List Char)
    (h : listStartsWith sub l = true) : listContainsSub sub l = true := by
  cases l with
  | nil =>
    cases sub with
    | nil => rfl
    | cons a as => simp [listStartsWith] at h
  | cons c cs => simp [listContainsSub, h]

/-- C3: for every tool name absent from the registry and any arguments,
`executeTool` returns (rather than throws) the descriptive string
`"Unknown tool: <name>"`, and that string contains the unknown-tool
indication `"Unknown tool"`. -/
theorem executeTool_unknown (tools : ToolRegistry) (name : String) (args : Args)
    (h : List.lookup name tools = none) :
    executeTool tools name args = Except.ok ("Unknown tool: " ++ name) ∧
    strIncludes ("Unknown tool: " ++ name) "Unknown tool" = true := by
  constructor
  · unfold executeTool
    rw [h]
  · unfold strIncludes
    apply listContainsSub_of_startsWith
    rw [String.data_append]
    exact listStartsWith_extend _ _ _ (by decide)

/-- Witness for C3: the unknown name `"frobnicate"` against the repository's
registry yields the unknown-tool string and no exception. -/
theorem executeTool_unknown_witness :
    executeTool (sampleRegistry "2026-10-12T00:00:00.000Z") "frobnicate" [] =
      Except.ok "Unknown tool: frobnicate" ∧
    strIncludes "Unknown tool: frobnicate" "Unknown tool" = true :=
  executeTool_unknown (sampleRegistry "2026-10-12T00:00:00.000Z") "frobnicate" [] rfl

/-- C9: `executeTool` totalizes its result to the string type: an
unregistered name yields the unknown-tool string, a descriptor with no
`execute` yields the provider-tool marker string, a locally resolved value is
coerced with `String(...)`, and every value it returns is one of those
strings. -/
theorem executeTool_total_string (tools : ToolRegistry) (name : String) (args : Args) :
    (List.lookup name tools = none →
      executeTool tools name args = Except.ok ("Unknown tool: " ++ name)) ∧
    (∀ t, List.lookup name tools = some t → t.execute = none →
      executeTool tools name args =
        Except.ok ("Provider tool " ++ name ++ " - executed by model provider")) ∧
    (∀ t f v, List.lookup name tools = some t → t.execute = some f →
      f args = Except.ok v →
      executeTool tools name args = Except.ok (jsString v)) ∧
    (∀ r, executeTool tools name args = Except.ok r →
      r = "Unknown tool: " ++ name ∨
      r = "Provider tool " ++ name ++ " - executed by model provider" ∨
      ∃ v : JSValue, r = jsString v) := by
  refine ⟨fun h => ?_, fun t h1 h2 => ?_, fun t f v h1 h2 h3 => ?_, fun r h => ?_⟩
  · unfold executeTool
    rw [h]
  · simp [executeTool, h1, h2]
  · simp [executeTool, h1, h2, h3]
  · rcases hl : List.lookup name tools with _ | t
    · simp [executeTool, hl] at h
      exact Or.inl h.symm
    · rcases he : t.execute with _ | f
      · simp [executeTool, hl, he] at h
        exact Or.inr (Or.inl h.symm)
      · rcases hr : f args with e | v
        · simp [executeTool, hl, he, hr] at h
        · simp [executeTool, hl, he, hr] at h
          exact Or.inr (Or.inr ⟨v, h.symm⟩)

/-- Witness for C9: on the repository's registry, the provider tool
`webSearch` yields its marker string, and the `dateTime` executor's resolved
value comes back string-coerced. -/
theorem executeTool_total_string_witness :
    executeTool (sampleRegistry "2026-10-12T00:00:00.000Z") "webSearch" [] =
      Except.ok "Provider tool webSearch - executed by model provider" ∧
    executeTool (sampleRegistry "2026-10-12T00:00:00.000Z") "dateTime" [] =
      Except.ok "2026-10-12T00:00:00.000Z" := by
  constructor
  · exact (executeTool_total_string (sampleRegistry "2026-10-12T00:00:00.000Z")
      "webSearch" []).2.1 webSearchTool rfl rfl
  · exact (executeTool_total_string (sampleRegistry "2026-10-12T00:00:00.000Z")
      "dateTime" []).2.2.1 (dateTimeTool "2026-10-12T00:00:00.000Z")
      (fun _ => Except.ok (JSValue.str "2026-10-12T00:00:00.000Z")) 
      (JSValue.str "2026-10-12T00:00:00.000Z") rfl rfl rfl

/-- C4: the code-execution tool never lets an exception escape its boundary,
and when the underlying operation raises, the result is the error string
distinctly prefixed with `"Error executing code: "`; a local tool failure is
therefore never fatal to the agent loop. -/
theorem executeCode_never_throws (w : Except String Unit) (s : ShellResult) :
    (∃ r : String, executeCode w s = Except.ok r) ∧
    (∀ e : String, w = Except.error e →
      executeCode w s = Except.ok ("Error executing code: " ++ e)) := by
  constructor
  · cases w with
    | error e => exact ⟨_, rfl⟩
    | ok u =>
      by_cases hc : (s.code == 0) = true <;>
        simp [executeCode, hc]
  · intro e he
    subst he
    rfl

/-- Witness for C4: a `writeFile` that throws `"disk full"` produces the
prefixed error string, not an exception. -/
theorem executeCode_never_throws_witness :
    executeCode (Except.error "disk full") { stdout := "", stderr := "", code := 0 } =
      Except.ok "Error executing code: disk full" :=
  (executeCode_never_throws (Except.error "disk full")
    { stdout := "", stderr := "", code := 0 }).2 "disk full" rfl

/-- C10: when every input message has the system role (including the empty
input), `compactConversation` returns the empty list — not the two-message
seed — and never invokes the summarization capability. -/
theorem compactConversation_all_system (gen : String → String)
    (toText : List Message → String) (msgs : List Message)
    (h : ∀ m ∈ msgs, m.role = Role.system) :
    compactConversation gen toText msgs = { messages := [], generateTextCalls := 0 } := by
  have hfilter : msgs.filter (fun m => decide (m.role ≠ Role.system)) = [] := by
    rw [List.filter_eq_nil_iff]
    intro m hm
    simp [h m hm]
  unfold compactConversation
  rw [hfilter]
  rfl

/-- Witness for C10: a single system message compacts to the empty list with
zero generation calls. -/
theorem compactConversation_all_system_witness :
    compactConversation (fun _ => "summary") (fun _ => "text")
      [{ role := Role.system, content := Content.text "You are a helpful assistant." }] =
      { messages := [], generateTextCalls := 0 } :=
  compactConversation_all_system (fun _ => "summary") (fun _ => "text")
    [{ role := Role.system, content := Content.text "You are a helpful assistant." }]
    (by intro m hm; simp at hm; rw [hm])

/-- C6: on any input containing a non-system message, `compactConversation`
returns exactly two messages — a synthetic user message followed by a
synthetic assistant acknowledgment — and compacting the resulting seed again
yields another two-message user/assistant seed (structural idempotence, no
duplicated roles). -/
theorem compactConversation_seed_pair
    (gen : String → String) (toText : List Message → String)
    (msgs : List Message) (m : Message) (hm : m ∈ msgs) (hrole : m.role ≠ Role.system) :
    (∃ u a : String,
      (compactConversation gen toText msgs).messages =
        [{ role := Role.user, content := Content.text u },
         { role := Role.assistant, content := Content.text a }]) ∧
    (∀ (gen2 : String → String) (toText2 : List Message → String),
      ∃ u2 a2 : String,
        (compactConversation gen2 toText2
            (compactConversation gen toText msgs).messages).messages =
          [{ role := Role.user, content := Content.text u2 },
           { role := Role.assistant, content := Content.text a2 }]) := by
  have hmem : m ∈ msgs.filter (fun x => decide (x.role ≠ Role.system)) :=
    List.mem_filter.mpr ⟨hm, by simp [hrole]⟩
  have hne : ¬ (msgs.filter (fun x => decide (x.role ≠ Role.system))).length = 0 := by
    intro h0
    rw [List.length_eq_zero] at h0
    rw [h0] at hmem
    simp at hmem
  constructor
  · simp only [compactConversation]
    rw [if_neg hne]
    exact ⟨_, _, rfl⟩
  · intro gen2 toText2
    simp only [compactConversation]
    rw [if_neg hne]
    exact ⟨_, _, rfl⟩

/-- Witness for C6: compacting a one-user-message history yields a
user/assistant seed, and compacting that seed again yields another one. -/
theorem compactConversation_seed_pair_witness :
    (∃ u a : String,
      (compactConversation (fun _ => "S") (fun _ => "T")
          [{ role := Role.user, content := Content.text "hi" }]).messages =
        [{ role := Role.user, content := Content.text u },
         { role := Role.assistant, content := Content.text a }]) ∧
    (∃ u2 a2 : String,
      (compactConversation (fun _ => "S2") (fun _ => "T2")
          (compactConversation (fun _ => "S") (fun _ => "T")
              [{ role := Role.user, content := Content.text "hi" }]).messages).messages =
        [{ role := Role.user, content := Content.text u2 },
         { role := Role.assistant, content := Content.text a2 }]) := by
  have h := compactConversation_seed_pair (fun _ => "S") (fun _ => "T")
    [{ role := Role.user, content := Content.text "hi" }]
    { role := Role.user, content := Content.text "hi" } (by simp) (by decide)
  exact ⟨h.1, h.2 (fun _ => "S2") (fun _ => "T2")⟩

/-- C5: when the generation capability's finish reason is not `tool-calls`
(and the stream did not error), the loop exits after that single generation
iteration, executing no tool call: the state gained one generation call, the
turn's text and response messages, and nothing else. -/
theorem runLoopHitl_non_tool_calls (onToolApproval : ToolCallInfo → Bool)
    (exec : ToolCallInfo → String) (turn : GenTurn) (rest : List GenTurn)
    (st0 : HitlState) (herr : turn.streamError = none)
    (hfin : turn.finishReason ≠ "tool-calls") :
    runLoopHitl onToolApproval exec (turn :: rest) st0 =
      ({ st0 with genCalls := st0.genCalls + 1,
                  fullResponse := st0.fullResponse ++ turn.text,
                  messages := st0.messages ++ turn.responseMessages },
        LoopExit.done) := by
  have hbne : (turn.finishReason != "tool-calls") = true := bne_iff_ne.mpr hfin
  simp only [runLoopHitl]
  rw [herr]
  simp only [runAfterStreamHitl, hbne, Bool.true_or, if_pos]

/-- Witness for C5: a single `stop` turn terminates the loop in one iteration
with no executed tool calls. -/
theorem runLoopHitl_non_tool_calls_witness :
    runLoopHitl (fun _ => true) (fun _ => "ok") [stopTurn]
        { messages := [], fullResponse := "", genCalls := 0, executed := [] } =
      ({ messages := stopTurn.responseMessages, fullResponse := stopTurn.text,
         genCalls := 1, executed := [] }, LoopExit.done) := by
  have h := runLoopHitl_non_tool_calls (fun _ => true) (fun _ => "ok") stopTurn []
    { messages := [], fullResponse := "", genCalls := 0, executed := [] }
    rfl (by decide)
  simpa using h

/-- C7: when the stream fails having produced no partial text and the error
matches the recognized no-output condition, the loop substitutes the fixed
apology message as the full response and ends the turn normally (no rethrow,
no further generation call, messages untouched). -/
theorem runLoopSrc_no_output_apology (turn : GenTurn) (rest : List GenTurn)
    (st0 : LoopState) (e : String) (herr : turn.streamError = some e)
    (htext : turn.text = "") (hmatch : strIncludes e "No output generated" = true) :
    runLoopSrc (turn :: rest) st0 =
      ({ st0 with genCalls := st0.genCalls + 1, fullResponse := apologyMessage },
        LoopExit.done) := by
  simp only [runLoopSrc]
  rw [herr]
  simp [htext, hmatch]

/-- Witness for C7: a first-turn stream failure with message
`"No output generated."` yields the apology as the entire response. -/
theorem runLoopSrc_no_output_apology_witness :
    runLoopSrc [noOutputErrorTurn] { messages := [], fullResponse := "", genCalls := 0 } =
      ({ messages := [], fullResponse := apologyMessage, genCalls := 1 },
        LoopExit.done) := by
  have h := runLoopSrc_no_output_apology noOutputErrorTurn []
    { messages := [], fullResponse := "", genCalls := 0 }
    "No output generated." rfl rfl (by decide)
  simpa using h

/-- C8: whatever messages a terminating run hands back to the caller contain
no system-role message, and they are the final conversation state's messages
in order (a sublist: the system message added at construction is stripped,
nothing is reordered). -/
theorem runAgent_strips_system (filterCompatible : List Message → List Message)
    (sys userMessage : String) (hist : List Message) (script : List GenTurn)
    (ms : List Message)
    (h : (runAgent filterCompatible sys userMessage hist script).returned = some ms) :
    (∀ m ∈ ms, m.role ≠ Role.system) ∧
    List.Sublist ms (runAgent filterCompatible sys userMessage hist script).state.messages := by
  simp only [runAgent] at h ⊢
  generalize runLoopSrc script
      { messages :=
          { role := Role.system, content := Content.text sys } ::
            filterCompatible hist ++
              [{ role := Role.user, content := Content.text userMessage }],
        fullResponse := "", genCalls := 0 } = r at h ⊢
  rcases r with ⟨st, ex⟩
  cases ex with
  | done =>
    dsimp only at h ⊢
    obtain rfl : ms = st.messages.filter (fun m => decide (m.role ≠ Role.system)) :=
      (Option.some.inj h).symm
    constructor
    · intro m hm
      exact of_decide_eq_true (List.mem_filter.mp hm).2
    · exact List.filter_sublist _
  | thrown e =>
    dsimp only at h
    exact Option.noConfusion h
  | scriptEnded =>
    dsimp only at h
    exact Option.noConfusion h

/-- Witness for C8: a one-turn `stop` run returns the user message and the
assistant response, system message stripped and order preserved. -/
theorem runAgent_strips_system_witness :
    (∀ m ∈ ([{ role := Role.user, content := Content.text "hi" },
             { role := Role.assistant, content := Content.text "Hello!" }] : List Message),
        m.role ≠ Role.system) ∧
    List.Sublist
      ([{ role := Role.user, content := Content.text "hi" },
        { role := Role.assistant, content := Content.text "Hello!" }] : List Message)
      (runAgent (fun h => h) "You are a helpful assistant" "hi" [] [stopTurn]).state.messages := by
  have h := runAgent_strips_system (fun h => h) "You are a helpful assistant" "hi" [] [stopTurn]
    [{ role := Role.user, content := Content.text "hi" },
     { role := Role.assistant, content := Content.text "Hello!" }] rfl
  exact h

theorem processToolCalls_reject (onToolApproval : ToolCallInfo → Bool)
    (exec : ToolCallInfo → String) (cs : List ToolCallInfo) (k : Nat)
    (hk : k < cs.length)
    (happrove : ∀ i (hi : i < cs.length), i < k → onToolApproval (cs.get ⟨i, hi⟩) = true)
    (hreject : onToolApproval (cs.get ⟨k, hk⟩) = false) :
    processToolCalls onToolApproval exec cs =
      (cs.take k, (cs.take k).map (fun tc => toolResultMessage tc (exec tc)), true) := by
  induction cs generalizing k with
  | nil => simp at hk
  | cons c cs ih =>
    cases k with
    | zero =>
      have hc : onToolApproval c = false := hreject
      simp [processToolCalls, hc]
    | succ j =>
      have hc : onToolApproval c = true :=
        happrove 0 (Nat.succ_pos cs.length) (Nat.succ_pos j)
      have hj : j < cs.length := Nat.lt_of_succ_lt_succ hk
      have ih' := ih j hj
        (fun i hi hij => happrove (i + 1) (Nat.succ_lt_succ hi) (Nat.succ_lt_succ hij))
        hreject
      simp [processToolCalls, hc, ih']

/-- C2: in a batch of proposed tool calls whose first `k` are approved and
whose call at index `k` (0-based; call `k+1` in 1-based counting) is
rejected, exactly the first `k` calls execute, calls after the rejected one
never execute, exactly `k` tool-result messages are appended, and the loop
ends the turn (`DONE`) without issuing another generation request. -/
theorem approval_rejection_short_circuits (onToolApproval : ToolCallInfo → Bool)
    (exec : ToolCallInfo → String) (turn : GenTurn) (rest : List GenTurn)
    (st0 : HitlState) (herr : turn.streamError = none)
    (hfin : turn.finishReason = "tool-calls") (k : Nat)
    (hk : k < turn.toolCalls.length)
    (happrove : ∀ i (hi : i < turn.toolCalls.length), i < k →
      onToolApproval (turn.toolCalls.get ⟨i, hi⟩) = true)
    (hreject : onToolApproval (turn.toolCalls.get ⟨k, hk⟩) = false) :
    (runLoopHitl onToolApproval exec (turn :: rest) st0).1.executed
        = st0.executed ++ turn.toolCalls.take k ∧
    (runLoopHitl onToolApproval exec (turn :: rest) st0).1.messages
        = st0.messages ++ turn.responseMessages
            ++ (turn.toolCalls.take k).map (fun tc => toolResultMessage tc (exec tc)) ∧
    (runLoopHitl onToolApproval exec (turn :: rest) st0).1.genCalls = st0.genCalls + 1 ∧
    (runLoopHitl onToolApproval exec (turn :: rest) st0).2 = LoopExit.done := by
  have hproc := processToolCalls_reject onToolApproval exec turn.toolCalls k hk happrove hreject
  have hbne : (turn.finishReason != "tool-calls") = false := by
    simp [hfin]
  have hemp : turn.toolCalls.isEmpty = false := by
    cases hcs : turn.toolCalls with
    | nil => rw [hcs] at hk; simp at hk
    | cons a l => rfl
  have hrun : runLoopHitl onToolApproval exec (turn :: rest) st0 =
      ({ messages := st0.messages ++ turn.responseMessages
            ++ (turn.toolCalls.take k).map (fun tc => toolResultMessage tc (exec tc)),
         fullResponse := st0.fullResponse ++ turn.text,
         genCalls := st0.genCalls + 1,
         executed := st0.executed ++ turn.toolCalls.take k }, LoopExit.done) := by
    simp only [runLoopHitl]
    rw [herr]
    simp only [runAfterStreamHitl, hbne, hemp, Bool.or_self, Bool.false_or, if_neg,
      Bool.false_eq_true, not_false_eq_true, hproc]
    simp
  rw [hrun]
  exact ⟨rfl, rfl, rfl, rfl⟩

/-- Witness for C2: three proposed calls, the gate rejects the second
(`deleteFile`): only `readFile` executes, one tool-result message is
appended, the loop exits after its single generation call. -/
theorem approval_rejection_short_circuits_witness :
    (runLoopHitl (fun tc => tc.toolName != "deleteFile") (fun _ => "ok")
        [threeCallTurn]
        { messages := [], fullResponse := "", genCalls := 0, executed := [] }).1.executed
      = [{ toolCallId := "c1", toolName := "readFile", args := [] }] ∧
    (runLoopHitl (fun tc => tc.toolName != "deleteFile") (fun _ => "ok")
        [threeCallTurn]
        { messages := [], fullResponse := "", genCalls := 0, executed := [] }).1.genCalls = 1 ∧
    (runLoopHitl (fun tc => tc.toolName != "deleteFile") (fun _ => "ok")
        [threeCallTurn]
        { messages := [], fullResponse := "", genCalls := 0, executed := [] }).2
      = LoopExit.done := by
  have h := approval_rejection_short_circuits (fun tc => tc.toolName != "deleteFile")
    (fun _ => "ok") threeCallTurn []
    { messages := [], fullResponse := "", genCalls := 0, executed := [] }
    rfl rfl 1 (by decide) (by decide) (by decide)
  refine ⟨?_, ?_, h.2.2.2⟩
  · rw [h.1]
    decide
  · rw [h.2.2.1]

/-- Counterexample to C1: `runAgent` (src/agent/run.ts) has no iteration
counter.  Against a model that always requests a tool call it performs a 4th
generation call (and would perform a 5th: the loop is still running when the
modelled script of four tool-call turns ends), so it is not forced to `DONE`
after 3 generation calls. -/
theorem runAgent_no_cap_counterexample :
    (runAgent (fun h => h) "You are a helpful assistant" "hi" []
        [toolCallTurn, toolCallTurn, toolCallTurn, toolCallTurn]).state.genCalls = 4 ∧
    (runAgent (fun h => h) "You are a helpful assistant" "hi" []
        [toolCallTurn, toolCallTurn, toolCallTurn, toolCallTurn]).exit
      = LoopExit.scriptEnded := by
  constructor
  · rfl
  · rfl

theorem runLoopCapped_genCalls_add (exec : ToolCallInfo → String)
    (model : Nat → GenTurn)
    (h : ∀ n, (model n).finishReason = "tool-calls" ∧ (model n).toolCalls ≠ []) :
    ∀ (budget : Nat) (st : CappedState),
      (runLoopCapped exec model budget st).genCalls = st.genCalls + budget := by
  intro budget
  induction budget with
  | zero => intro st; rfl
  | succ b ih =>
    intro st
    have h1 := (h st.genCalls).1
    have h2 := (h st.genCalls).2
    have hbne : ((model st.genCalls).finishReason != "tool-calls") = false := by
      simp [h1]
    have hemp : (model st.genCalls).toolCalls.isEmpty = false := by
      cases hcs : (model st.genCalls).toolCalls with
      | nil => exact absurd hcs h2
      | cons a l => rfl
    simp only [runLoopCapped, hbne, hemp, Bool.or_self, if_neg, Bool.false_eq_true,
      not_false_eq_true, ih]
    omega

/-- C1 (amended): the bounded-loop pattern of the agent-loop lesson,
`while (iterations < MAX_ITERATIONS)`, with cap 3, forces a model that always
requests a tool call to stop after exactly 3 generation calls — never 4. -/
theorem capped_loop_exactly_three (exec : ToolCallInfo → String)
    (model : Nat → GenTurn)
    (h : ∀ n, (model n).finishReason = "tool-calls" ∧ (model n).toolCalls ≠ []) :
    (runLoopCapped exec model 3
        { messages := [], genCalls := 0, executed := [] }).genCalls = 3 := by
  simpa using runLoopCapped_genCalls_add exec model h 3
    { messages := [], genCalls := 0, executed := [] }

/-- Witness for C1 (amended): a concrete always-tool-calling model makes
exactly 3 generation calls under the cap. -/
theorem capped_loop_exactly_three_witness :
    (runLoopCapped (fun _ => "ok") (fun _ => toolCallTurn) 3
        { messages := [], genCalls := 0, executed := [] }).genCalls = 3 :=
  capped_loop_exactly_three (fun _ => "ok") (fun _ => toolCallTurn)
    (fun _ => ⟨rfl, by simp [toolCallTurn]⟩)
